import Mathlib

/-!
Verification of the pure poker state-transition engine of
`nextjs-realtime-poker` (files `engine.ts`, `helpers.ts`, `types.ts`).

The engine is translated as a shallow embedding: JavaScript numbers become
`Int`, nullable values become `Option`, JS truthiness tests on possibly-null
numbers and strings are modelled explicitly (`0` and the empty string are
falsy), and `Array.prototype.sort` (stable) becomes `List.insertionSort`
(any two stable sorts of the same list under the same total preorder are
equal, and insertion sort reduces inside the kernel).
Error results carry the error kind; the human-readable message strings of
the source are elided.
-/

/-- Game phases, from the `GamePhase` enum used by the snapshot. -/
inductive Phase where
  | SETUP
  | PREFLOP
  | FLOP
  | TURN
  | RIVER
  | SHOWDOWN
  | HAND_OVER
  | GAMEOVER
  deriving DecidableEq, Repr

/-- Action types, from `Act` in `types.ts`. -/
inductive Act where
  | FOLD
  | CHECK
  | CALL
  | BET
  | RAISE
  | SMALL_BLIND
  | BIG_BLIND
  | WIN
  | SIT_OUT
  | SIT_IN
  deriving DecidableEq, Repr

/-- `PlayerState` from `types.ts` (fields the engine reads and writes). -/
structure PlayerState where
  id : String
  seat : Int
  chipCount : Int
  isActive : Bool
  currentBet : Int
  hasFolded : Bool
  isSittingOut : Bool
  deriving DecidableEq, Repr

/-- The `lastAction` record stored on a snapshot. -/
structure LastAction where
  playerId : String
  type : Act
  amount : Option Int := none
  deriving DecidableEq, Repr

/-- One entry of the append-only action history (`GameActionRecord`);
`createdAt` is the timestamp the history is sorted by. -/
structure GameActionRecord where
  playerId : String
  type : Act
  amount : Option Int := none
  createdAt : Int
  deriving DecidableEq, Repr

/-- `GameSnapshot` from `types.ts`, restricted to the fields the engine
reads or writes (`id`, `roomCode` and `creatorId` are opaque to it). -/
structure GameSnapshot where
  smallBlind : Int
  bigBlind : Int
  phase : Phase
  potSize : Int
  currentTurn : Option Int
  dealerSeat : Option Int
  players : List PlayerState
  lastAction : Option LastAction := none
  highestBet : Int
  minRaise : Int
  roundComplete : Bool := false
  actions : List GameActionRecord := []
  deriving DecidableEq, Repr

/-- Input action (`ActionIn` from `types.ts`). -/
structure ActionIn where
  type : Act
  playerId : Option String := none
  amount : Option Int := none
  targetPlayerId : Option String := none
  deriving DecidableEq, Repr

/-- Error kinds returned by the engine (the `error` strings of the source). -/
inductive GameError where
  | INVALID_ACTION
  | INVALID_ACTION_PHASE
  | NOT_YOUR_TURN
  | PLAYER_NOT_FOUND
  | INSUFFICIENT_FUNDS
  | INVALID_BET_AMOUNT
  | INTERNAL_ERROR
  | NOT_ENOUGH_PLAYERS
  | INVALID_PHASE
  deriving DecidableEq, Repr

/-- `GameActionResult`: success snapshot or structured rejection
(message text elided). -/
inductive GameActionResult where
  | ok (data : GameSnapshot)
  | err (error : GameError)
  deriving DecidableEq, Repr

/-- Whether a result is a success. -/
def GameActionResult.isOk : GameActionResult → Bool
  | .ok _ => true
  | .err _ => false

/-- JS truthiness of a nullable number: `null` and `0` are falsy
(models `!game.dealerSeat` in `helpers.ts`). -/
def seatFalsy : Option Int → Bool
  | none => true
  | some v => decide (v = 0)

/-- JS truthiness of an optional string: `undefined` and `""` are falsy
(models `!action.playerId` in `engine.ts`). -/
def strFalsy : Option String → Bool
  | none => true
  | some s => decide (s = "")

/-- The filter used by `getNextActiveSeat`: active, not folded,
not sitting out. -/
def inRotation (p : PlayerState) : Bool :=
  p.isActive && !p.hasFolded && !p.isSittingOut

/-- The filter used by the blind-position helpers and `resetForNextHand`:
active and not sitting out. -/
def isEligible (p : PlayerState) : Bool :=
  p.isActive && !p.isSittingOut

/-- The filter used by `isRoundComplete`: not folded and not sitting out
(all-in players count even though flagged inactive). -/
def isContender (p : PlayerState) : Bool :=
  !p.hasFolded && !p.isSittingOut

/-- The comparator `(a, b) => a.seat - b.seat` (ascending). -/
def seatLE (a b : PlayerState) : Prop :=
  a.seat ≤ b.seat

instance : DecidableRel seatLE :=
  fun a b => inferInstanceAs (Decidable (a.seat ≤ b.seat))

instance : IsTotal PlayerState seatLE :=
  ⟨fun a b => le_total a.seat b.seat⟩

instance : IsTrans PlayerState seatLE :=
  ⟨fun _ _ _ h h2 => le_trans h h2⟩

/-- The comparator on action records: ascending `createdAt`. -/
def createdAtLE (a b : GameActionRecord) : Prop :=
  a.createdAt ≤ b.createdAt

instance : DecidableRel createdAtLE :=
  fun a b => inferInstanceAs (Decidable (a.createdAt ≤ b.createdAt))

/-- The seat-sorted list of in-rotation players (the `sortedPlayers`
local of `getNextActiveSeat`): the stable ascending sort of the filtered
list. -/
def sortedRotation (players : List PlayerState) : List PlayerState :=
  List.insertionSort seatLE (players.filter inRotation)

/-- `getNextActiveSeat` from `helpers.ts`: next active player seat in
clockwise order over the seat-sorted active list. -/
def getNextActiveSeat (players : List PlayerState) (currentSeat : Option Int) :
    Option Int :=
  match sortedRotation players with
  | [] => none
  | q :: rest =>
    match currentSeat with
    | none => some q.seat
    | some c =>
      match List.findIdx? (fun p => decide (p.seat = c)) (q :: rest) with
      | none => some q.seat
      | some i =>
          some ((List.getD (q :: rest) ((i + 1) % (q :: rest).length) q).seat)

/-- `isHeadsUp` from `helpers.ts`: exactly two active, non-sitting-out
players. -/
def isHeadsUp (players : List PlayerState) : Bool :=
  decide ((players.filter isEligible).length = 2)

/-- `getSmallBlindSeat` from `helpers.ts`.  Note the JS falsy test on
`dealerSeat`: dealer seat `0` behaves like "no dealer". -/
def getSmallBlindSeat (game : GameSnapshot) : Option Int :=
  if seatFalsy game.dealerSeat then none
  else
    let activePlayers := game.players.filter isEligible
    if isHeadsUp game.players then game.dealerSeat
    else getNextActiveSeat activePlayers game.dealerSeat

/-- `getBigBlindSeat` from `helpers.ts` (strict `=== null` test on the
small-blind seat). -/
def getBigBlindSeat (game : GameSnapshot) (smallBlindSeat : Option Int) :
    Option Int :=
  match smallBlindSeat with
  | none => none
  | some _ =>
    let activePlayers := game.players.filter isEligible
    getNextActiveSeat activePlayers smallBlindSeat

/-- `getFirstToActSeat` from `helpers.ts`. -/
def getFirstToActSeat (game : GameSnapshot) : Option Int :=
  if seatFalsy game.dealerSeat then none
  else
    let activePlayers := game.players.filter isEligible
    if activePlayers.length = 0 then none
    else
      let smallBlindSeat := getSmallBlindSeat game
      let bigBlindSeat := getBigBlindSeat game smallBlindSeat
      if game.phase = Phase.PREFLOP then
        match bigBlindSeat with
        | some _ => getNextActiveSeat activePlayers bigBlindSeat
        | none => getNextActiveSeat activePlayers game.dealerSeat
      else
        getNextActiveSeat activePlayers game.dealerSeat

/-- The suffix of the action history after the most recent `WIN` record
(the backward scan for `lastWinIndex` followed by `slice(lastWinIndex+1)`
in `isRoundComplete`). -/
def currentHandActions : List GameActionRecord → List GameActionRecord
  | [] => []
  | a :: rest =>
      if rest.any (fun r => r.type = Act.WIN) then currentHandActions rest
      else if a.type = Act.WIN then rest
      else a :: rest

/-- The backward scan of `isRoundComplete` for the seat of the most recent
`BET`/`RAISE` whose actor is found among the players. -/
def lastAggressorSeat (players : List PlayerState) :
    List GameActionRecord → Option Int
  | [] => none
  | a :: rest =>
      match lastAggressorSeat players rest with
      | some s => some s
      | none =>
        if a.type = Act.BET || a.type = Act.RAISE then
          match players.find? (fun p => decide (p.id = a.playerId)) with
          | some p => some p.seat
          | none => none
        else none

/-- `isRoundComplete` from `helpers.ts`: has the current betting round
closed. -/
def isRoundComplete (game : GameSnapshot) : Bool :=
  let activePlayers := game.players.filter isContender
  if activePlayers.length ≤ 1 then true
  else if game.lastAction = none && game.phase ≠ Phase.PREFLOP then false
  else
    let highestBet := game.highestBet
    let sortedActions := List.insertionSort createdAtLE game.actions
    let aggressor := lastAggressorSeat game.players
      (currentHandActions sortedActions)
    let isPreflopNoRaise :=
      game.phase = Phase.PREFLOP && aggressor = none &&
        highestBet = game.bigBlind
    let bigBlindSeat := getBigBlindSeat game (getSmallBlindSeat game)
    let allBetsMatch :=
      activePlayers.all (fun p => decide (p.currentBet = highestBet))
    if allBetsMatch then
      if isPreflopNoRaise then
        decide (game.currentTurn = getNextActiveSeat activePlayers bigBlindSeat)
      else if aggressor.isSome && decide (highestBet > 0) then
        decide (game.currentTurn = getNextActiveSeat activePlayers aggressor)
      else
        decide (game.currentTurn = getFirstToActSeat game)
    else false

/-- `getCurrentPlayer` from `engine.ts`: the active player occupying the
current-turn seat. -/
def getCurrentPlayer (state : GameSnapshot) : Option PlayerState :=
  match state.currentTurn with
  | none => none
  | some currentSeat =>
      state.players.find? (fun p => decide (p.seat = currentSeat) && p.isActive)

/-- `validatePlayerTurn` from `engine.ts`. -/
def validatePlayerTurn (state : GameSnapshot) (playerId : Option String) :
    Bool :=
  if strFalsy playerId then false
  else
    match getCurrentPlayer state, playerId with
    | some cp, some pid => decide (cp.id = pid)
    | _, _ => false

/-- The per-player update `players.map(...)` pattern of the handlers:
replace the players whose id equals `pid` by `f` applied to them. -/
def updateById (players : List PlayerState) (pid : Option String)
    (f : PlayerState → PlayerState) : List PlayerState :=
  players.map (fun p => if some p.id = pid then f p else p)

/-- `handleWin` from `engine.ts`: award the whole pot, then `GAMEOVER`
when at most one player retains chips, else `HAND_OVER`. -/
def handleWin (state : GameSnapshot) (action : ActionIn) : GameActionResult :=
  if strFalsy action.targetPlayerId then .err .INVALID_ACTION
  else
    match state.players.find? (fun p => decide (some p.id = action.targetPlayerId)) with
    | none => .err .PLAYER_NOT_FOUND
    | some _ =>
      let newPlayers := updateById state.players action.targetPlayerId
        (fun p => { p with chipCount := p.chipCount + state.potSize })
      let la : LastAction :=
        { playerId := (if strFalsy action.playerId then action.targetPlayerId
            else action.playerId).getD ""
          type := Act.WIN
          amount := some state.potSize }
      let tempState : GameSnapshot := { state with
        players := newPlayers, potSize := 0, lastAction := some la }
      let playersWithChips := tempState.players.filter (fun p => decide (p.chipCount > 0))
      if playersWithChips.length ≤ 1 then
        .ok { tempState with
          phase := Phase.GAMEOVER, currentTurn := none, dealerSeat := none,
          highestBet := 0, minRaise := 0, roundComplete := true }
      else
        .ok { tempState with
          phase := Phase.HAND_OVER, currentTurn := none,
          highestBet := 0, minRaise := state.bigBlind, roundComplete := true }

/-- `handleAutoWin` from `engine.ts`. -/
def handleAutoWin (state : GameSnapshot) (winningPlayerId : String) :
    GameActionResult :=
  handleWin state { type := Act.WIN, targetPlayerId := some winningPlayerId }

/-- The body of `advanceToNextPhase` once the next phase is known: zero
`highestBet`, reset `minRaise` to the big blind, zero every player's
current-round bet, recompute the first player to act. -/
def applyPhaseAdvance (state : GameSnapshot) (newPhase : Phase) :
    GameActionResult :=
  let s1 : GameSnapshot := { state with
    phase := newPhase
    highestBet := 0
    minRaise := state.bigBlind
    players := state.players.map (fun p => { p with currentBet := 0 }) }
  .ok { s1 with currentTurn := getFirstToActSeat s1 }

/-- `advanceToNextPhase` from `engine.ts`. -/
def advanceToNextPhase (state : GameSnapshot) : GameActionResult :=
  match state.phase with
  | Phase.PREFLOP => applyPhaseAdvance state Phase.FLOP
  | Phase.FLOP => applyPhaseAdvance state Phase.TURN
  | Phase.TURN => applyPhaseAdvance state Phase.RIVER
  | Phase.RIVER => applyPhaseAdvance state Phase.SHOWDOWN
  | Phase.SHOWDOWN => .ok state
  | _ => .err .INVALID_PHASE

/-- The common tail of fold/check/call/raise: advance the turn, then
advance the phase when the betting round is complete. -/
def advanceTurnAndMaybePhase (newState : GameSnapshot)
    (prevTurn : Option Int) : GameActionResult :=
  let nextSeat := getNextActiveSeat newState.players prevTurn
  let newState2 : GameSnapshot := { newState with currentTurn := nextSeat }
  if isRoundComplete newState2 then advanceToNextPhase newState2
  else .ok newState2

/-- `handleFold` from `engine.ts`. -/
def handleFold (state : GameSnapshot) (action : ActionIn) : GameActionResult :=
  if state.phase = Phase.SHOWDOWN then .err .INVALID_ACTION_PHASE
  else if strFalsy action.playerId then .err .INVALID_ACTION
  else if !validatePlayerTurn state action.playerId then .err .NOT_YOUR_TURN
  else
    let newPlayers := updateById state.players action.playerId
      (fun p => { p with hasFolded := true })
    let newState : GameSnapshot := { state with
      players := newPlayers
      lastAction := some { playerId := action.playerId.getD "", type := Act.FOLD } }
    match newState.players.filter inRotation with
    | [lone] => handleAutoWin newState lone.id
    | _ => advanceTurnAndMaybePhase newState state.currentTurn

/-- `handleCheck` from `engine.ts`. -/
def handleCheck (state : GameSnapshot) (action : ActionIn) : GameActionResult :=
  if state.phase = Phase.SHOWDOWN then .err .INVALID_ACTION_PHASE
  else if strFalsy action.playerId then .err .INVALID_ACTION
  else if !validatePlayerTurn state action.playerId then .err .NOT_YOUR_TURN
  else
    match state.players.find? (fun p => decide (some p.id = action.playerId)) with
    | none => .err .PLAYER_NOT_FOUND
    | some currentPlayer =>
      if state.highestBet > 0 ∧ currentPlayer.currentBet < state.highestBet then
        .err .INVALID_ACTION
      else
        let newState : GameSnapshot := { state with
          lastAction := some { playerId := action.playerId.getD "", type := Act.CHECK } }
        advanceTurnAndMaybePhase newState state.currentTurn

/-- `handleCall` from `engine.ts`. -/
def handleCall (state : GameSnapshot) (action : ActionIn) : GameActionResult :=
  if state.phase = Phase.SHOWDOWN then .err .INVALID_ACTION_PHASE
  else if strFalsy action.playerId then .err .INVALID_ACTION
  else if !validatePlayerTurn state action.playerId then .err .NOT_YOUR_TURN
  else
    match state.players.find? (fun p => decide (some p.id = action.playerId)) with
    | none => .err .PLAYER_NOT_FOUND
    | some currentPlayer =>
      let amountToCall := state.highestBet - currentPlayer.currentBet
      if currentPlayer.chipCount < amountToCall then .err .INSUFFICIENT_FUNDS
      else
        let newState : GameSnapshot := { state with
          players := updateById state.players action.playerId
            (fun p => { p with
              chipCount := p.chipCount - amountToCall
              currentBet := state.highestBet })
          potSize := state.potSize + amountToCall
          lastAction := some { playerId := action.playerId.getD ""
                               type := Act.CALL, amount := some amountToCall } }
        advanceTurnAndMaybePhase newState state.currentTurn

/-- `handleRaise` from `engine.ts` (also serves `BET`). -/
def handleRaise (state : GameSnapshot) (action : ActionIn) : GameActionResult :=
  if state.phase = Phase.SHOWDOWN then .err .INVALID_ACTION_PHASE
  else if strFalsy action.playerId || action.amount = none then
    .err .INVALID_ACTION
  else if !validatePlayerTurn state action.playerId then .err .NOT_YOUR_TURN
  else
    match state.players.find? (fun p => decide (some p.id = action.playerId)) with
    | none => .err .PLAYER_NOT_FOUND
    | some currentPlayer =>
      let amount := action.amount.getD 0
      let totalBetAmount := state.highestBet + state.minRaise
      if amount < totalBetAmount then .err .INVALID_BET_AMOUNT
      else
        let amountNeeded := amount - currentPlayer.currentBet
        if currentPlayer.chipCount < amountNeeded then .err .INSUFFICIENT_FUNDS
        else
          let newState : GameSnapshot := { state with
            players := updateById state.players action.playerId
              (fun p => { p with
                chipCount := p.chipCount - amountNeeded
                currentBet := amount })
            potSize := state.potSize + amountNeeded
            highestBet := amount
            minRaise := amount - state.highestBet
            lastAction := some { playerId := action.playerId.getD ""
                                 type := if action.type = Act.BET then Act.BET else Act.RAISE
                                 amount := some amount } }
          advanceTurnAndMaybePhase newState state.currentTurn

/-- `handleSmallBlind` from `engine.ts`. -/
def handleSmallBlind (state : GameSnapshot) (action : ActionIn) :
    GameActionResult :=
  if strFalsy action.playerId then .err .INVALID_ACTION
  else
    let smallBlindSeat := getSmallBlindSeat state
    match state.players.find? (fun p => decide (some p.seat = smallBlindSeat)) with
    | none => .err .INVALID_ACTION
    | some smallBlindPlayer =>
      if some smallBlindPlayer.id ≠ action.playerId then .err .INVALID_ACTION
      else if smallBlindPlayer.chipCount < state.smallBlind then
        .err .INSUFFICIENT_FUNDS
      else
        let newState : GameSnapshot := { state with
          players := updateById state.players action.playerId
            (fun p => { p with
              chipCount := p.chipCount - state.smallBlind
              currentBet := state.smallBlind })
          potSize := state.potSize + state.smallBlind
          highestBet := state.smallBlind
          lastAction := some { playerId := action.playerId.getD ""
                               type := Act.SMALL_BLIND
                               amount := some state.smallBlind } }
        match getBigBlindSeat newState smallBlindSeat with
        | none => .err .INTERNAL_ERROR
        | some bigBlindSeat => .ok { newState with currentTurn := some bigBlindSeat }

/-- `handleBigBlind` from `engine.ts`.  Note that `getFirstToActSeat` is
evaluated while the phase is still the pre-transition one (`SETUP` on the
first posting), so it takes the post-flop branch of the helper. -/
def handleBigBlind (state : GameSnapshot) (action : ActionIn) :
    GameActionResult :=
  if strFalsy action.playerId then .err .INVALID_ACTION
  else
    let smallBlindSeat := getSmallBlindSeat state
    let bigBlindSeat := getBigBlindSeat state smallBlindSeat
    match state.players.find? (fun p => decide (some p.seat = bigBlindSeat)) with
    | none => .err .INVALID_ACTION
    | some bigBlindPlayer =>
      if some bigBlindPlayer.id ≠ action.playerId then .err .INVALID_ACTION
      else if bigBlindPlayer.chipCount < state.bigBlind then
        .err .INSUFFICIENT_FUNDS
      else
        let newState : GameSnapshot := { state with
          players := updateById state.players action.playerId
            (fun p => { p with
              chipCount := p.chipCount - state.bigBlind
              currentBet := state.bigBlind })
          potSize := state.potSize + state.bigBlind
          highestBet := state.bigBlind
          minRaise := state.bigBlind
          lastAction := some { playerId := action.playerId.getD ""
                               type := Act.BIG_BLIND
                               amount := some state.bigBlind } }
        let newState2 : GameSnapshot := { newState with currentTurn := getFirstToActSeat newState }
        if state.phase = Phase.SETUP then
          .ok { newState2 with phase := Phase.PREFLOP }
        else .ok newState2

/-- `handleSitOut` from `engine.ts`. -/
def handleSitOut (state : GameSnapshot) (action : ActionIn) : GameActionResult :=
  if strFalsy action.playerId then .err .INVALID_ACTION
  else
    match state.players.find? (fun p => decide (some p.id = action.playerId)) with
    | none => .err .PLAYER_NOT_FOUND
    | some player =>
      let newPlayers := updateById state.players action.playerId
        (fun p => { p with isSittingOut := true })
      let newTurn :=
        if some player.seat = state.currentTurn then
          getNextActiveSeat newPlayers state.currentTurn
        else state.currentTurn
      .ok { state with
        players := newPlayers
        currentTurn := newTurn
        lastAction := some { playerId := action.playerId.getD "", type := Act.SIT_OUT } }

/-- `handleSitIn` from `engine.ts`. -/
def handleSitIn (state : GameSnapshot) (action : ActionIn) : GameActionResult :=
  if strFalsy action.playerId then .err .INVALID_ACTION
  else
    match state.players.find? (fun p => decide (some p.id = action.playerId)) with
    | none => .err .PLAYER_NOT_FOUND
    | some _ =>
      .ok { state with
        players := updateById state.players action.playerId
          (fun p => { p with isSittingOut := false })
        lastAction := some { playerId := action.playerId.getD "", type := Act.SIT_IN } }

/-- `nextState` from `engine.ts`: the engine's single entry point. -/
def nextState (prevState : GameSnapshot) (action : ActionIn) :
    GameActionResult :=
  match action.type with
  | Act.FOLD => handleFold prevState action
  | Act.CHECK => handleCheck prevState action
  | Act.CALL => handleCall prevState action
  | Act.BET => handleRaise prevState action
  | Act.RAISE => handleRaise prevState action
  | Act.SMALL_BLIND => handleSmallBlind prevState action
  | Act.BIG_BLIND => handleBigBlind prevState action
  | Act.WIN => handleWin prevState action
  | Act.SIT_OUT => handleSitOut prevState action
  | Act.SIT_IN => handleSitIn prevState action

/-- Step 2 of `resetForNextHand`: reset the players for the new hand —
zero current bets, clear folded flags, clamp negative chip counts to 0,
and recompute `isActive` from the (pre-clamp) chip count and the
sitting-out flag. -/
def resetPlayersOf (state : GameSnapshot) : List PlayerState :=
  state.players.map (fun p =>
    { p with
      currentBet := 0
      hasFolded := false
      chipCount := if p.chipCount ≤ 0 then 0 else p.chipCount
      isActive := decide (p.chipCount > 0) && !p.isSittingOut })

/-- Step 3 of `resetForNextHand`: the temporary snapshot used to compute
the blind seats from the new dealer. -/
def tempStateForBlinds (state : GameSnapshot) (newDealerSeat : Int) :
    GameSnapshot :=
  { state with dealerSeat := some newDealerSeat, players := resetPlayersOf state }

/-- `resetForNextHand` from `engine.ts`: prepare the next hand without
applying the blinds. -/
def resetForNextHand (state : GameSnapshot) : GameActionResult :=
  let activePlayers := state.players.filter isEligible
  if activePlayers.length < 2 then .err .NOT_ENOUGH_PLAYERS
  else
    match getNextActiveSeat activePlayers state.dealerSeat with
    | none => .err .INTERNAL_ERROR
    | some newDealerSeat =>
      let sbSeat := getSmallBlindSeat (tempStateForBlinds state newDealerSeat)
      let bbSeat := getBigBlindSeat (tempStateForBlinds state newDealerSeat) sbSeat
      match sbSeat, bbSeat with
      | some sb, some _ =>
        .ok { state with
          players := resetPlayersOf state
          dealerSeat := some newDealerSeat
          potSize := 0
          currentTurn := some sb
          highestBet := 0
          minRaise := state.bigBlind
          phase := Phase.SETUP
          roundComplete := false
          lastAction := none }
      | _, _ => .err .INTERNAL_ERROR

/-! ## Observers and derived quantities -/

/-- The snapshot carried by a successful result. -/
def GameActionResult.snap? : GameActionResult → Option GameSnapshot
  | .ok s => some s
  | .err _ => none

/-- Apply a further action to a successful result (the controller's
sequencing of `nextState` calls). -/
def GameActionResult.andThen (r : GameActionResult) (a : ActionIn) :
    GameActionResult :=
  match r with
  | .ok s => nextState s a
  | .err e => .err e

/-- Sum of the chip stacks of a list of players. -/
def chipSum (players : List PlayerState) : Int :=
  (players.map (fun p => p.chipCount)).sum

/-- Total chips in play: all stacks plus the pot. -/
def totalChips (s : GameSnapshot) : Int :=
  chipSum s.players + s.potSize

/-- All stacks of a snapshot are non-negative. -/
def allStacksNonneg (s : GameSnapshot) : Prop :=
  ∀ p ∈ s.players, 0 ≤ p.chipCount

/-- The request asks for more chips than the acting player has, with every
check that precedes the handler's `INSUFFICIENT_FUNDS` guard passing:
for `CALL`, `BET` and `RAISE` the phase, player-id, turn (and for bets the
minimum-raise) checks; for the blinds the blind-seat-occupancy check. -/
def insufficientChipsRequest (s : GameSnapshot) (a : ActionIn) : Bool :=
  match a.type with
  | Act.CALL =>
      decide (s.phase ≠ Phase.SHOWDOWN) && !strFalsy a.playerId &&
      validatePlayerTurn s a.playerId &&
      (match s.players.find? (fun p => decide (some p.id = a.playerId)) with
       | some cp => decide (cp.chipCount < s.highestBet - cp.currentBet)
       | none => false)
  | Act.BET | Act.RAISE =>
      decide (s.phase ≠ Phase.SHOWDOWN) &&
      !(strFalsy a.playerId || decide (a.amount = none)) &&
      validatePlayerTurn s a.playerId &&
      (match s.players.find? (fun p => decide (some p.id = a.playerId)) with
       | some cp =>
          !decide (a.amount.getD 0 < s.highestBet + s.minRaise) &&
          decide (cp.chipCount < a.amount.getD 0 - cp.currentBet)
       | none => false)
  | Act.SMALL_BLIND =>
      !strFalsy a.playerId &&
      (match s.players.find? (fun p => decide (some p.seat = getSmallBlindSeat s)) with
       | some sp => decide (some sp.id = a.playerId) &&
          decide (sp.chipCount < s.smallBlind)
       | none => false)
  | Act.BIG_BLIND =>
      !strFalsy a.playerId &&
      (match s.players.find? (fun p =>
          decide (some p.seat = getBigBlindSeat s (getSmallBlindSeat s))) with
       | some bp => decide (some bp.id = a.playerId) &&
          decide (bp.chipCount < s.bigBlind)
       | none => false)
  | _ => false

/-- Specification-level description of `nextActiveSeat`, written from the
spec text: among the players that are active, not folded and not sitting
out, the seat immediately after `fromSeat` in circular order is the least
seat greater than `fromSeat`, wrapping to the least seat overall; the
first active seat is the least one; the result is `none` exactly when no
such players exist. -/
def specNextActiveSeat (players : List PlayerState) (fromSeat : Option Int) :
    Option Int :=
  let seats := (players.filter inRotation).map (fun p => p.seat)
  match fromSeat with
  | none => seats.min?
  | some c =>
    if c ∈ seats then
      match (seats.filter (fun t => decide (c < t))).min? with
      | some t => some t
      | none => seats.min?
    else seats.min?

/-! ## Concrete scenarios -/

/-- An occupied seat: id, seat, stack, current-round contribution; active,
not folded, not sitting out. -/
def mkPlayer (i : String) (s chips bet : Int) : PlayerState :=
  { id := i, seat := s, chipCount := chips, isActive := true,
    currentBet := bet, hasFolded := false, isSittingOut := false }

/-- C1: heads-up table in `SETUP`, blinds 5/10, dealer (= small blind)
in seat 1, big blind in seat 2, both stacks 1000, blinds not yet posted. -/
def c1Setup : GameSnapshot :=
  { smallBlind := 5, bigBlind := 10, phase := Phase.SETUP, potSize := 0,
    currentTurn := some 1, dealerSeat := some 1,
    players := [mkPlayer "p1" 1 1000 0, mkPlayer "p2" 2 1000 0],
    highestBet := 0, minRaise := 10 }

/-- C1 trace: post the blinds, big blind checks, small blind calls — after
which every contender's contribution equals the big blind and the big
blind is to act — then the big blind checks. -/
def c1AfterBlinds : GameActionResult :=
  (nextState c1Setup { type := Act.SMALL_BLIND, playerId := some "p1" }).andThen
    { type := Act.BIG_BLIND, playerId := some "p2" }

/-- C1 trace continued: first check by the big blind (the engine hands it
the turn first), then the small blind completes the call. -/
def c1AfterCall : GameActionResult :=
  (c1AfterBlinds.andThen { type := Act.CHECK, playerId := some "p2" }).andThen
    { type := Act.CALL, playerId := some "p1" }

/-- C1 trace continued: the closing check by the big blind. -/
def c1AfterClosingCheck : GameActionResult :=
  c1AfterCall.andThen { type := Act.CHECK, playerId := some "p2" }

/-- C2: the spec's concrete three-player table, stacks 1000 in seats
0, 1 and 2, blinds 5/10, dealer in seat 0, phase `SETUP`. -/
def c2DealerZero : GameSnapshot :=
  { smallBlind := 5, bigBlind := 10, phase := Phase.SETUP, potSize := 0,
    currentTurn := some 1, dealerSeat := some 0,
    players := [mkPlayer "a" 0 1000 0, mkPlayer "b" 1 1000 0,
                mkPlayer "c" 2 1000 0],
    highestBet := 0, minRaise := 10 }

/-- C2 amended: the same table shifted to seats 1, 2 and 3 with the dealer
in seat 1 (the code treats dealer seat 0 as "no dealer"). -/
def c2DealerOne : GameSnapshot :=
  { smallBlind := 5, bigBlind := 10, phase := Phase.SETUP, potSize := 0,
    currentTurn := some 2, dealerSeat := some 1,
    players := [mkPlayer "a" 1 1000 0, mkPlayer "b" 2 1000 0,
                mkPlayer "c" 3 1000 0],
    highestBet := 0, minRaise := 10 }

/-- C2 amended trace: small blind posted by the seat-2 player. -/
def c2AfterSmallBlind : GameActionResult :=
  nextState c2DealerOne { type := Act.SMALL_BLIND, playerId := some "b" }

/-- C2 amended trace: big blind posted by the seat-3 player. -/
def c2AfterBigBlind : GameActionResult :=
  c2AfterSmallBlind.andThen { type := Act.BIG_BLIND, playerId := some "c" }

/-- C5: a three-player `PREFLOP` table where it is the seat-2 player's
turn, used to show that `SIT_OUT` is not turn-gated. -/
def c5State : GameSnapshot :=
  { smallBlind := 5, bigBlind := 10, phase := Phase.PREFLOP, potSize := 15,
    currentTurn := some 2, dealerSeat := some 1,
    players := [mkPlayer "a" 1 1000 0, mkPlayer "b" 2 995 5,
                mkPlayer "c" 3 990 10],
    highestBet := 10, minRaise := 10 }

/-- C6: three contenders on the `FLOP`, player "a" has bet 10 into a pot
of 30, players "b" (seat 2, to act) and "c" (seat 3) have not matched it. -/
def c6Flop : GameSnapshot :=
  { smallBlind := 5, bigBlind := 10, phase := Phase.FLOP, potSize := 30,
    currentTurn := some 2, dealerSeat := some 3,
    players := [mkPlayer "a" 1 990 10, mkPlayer "b" 2 100 0,
                mkPlayer "c" 3 50 0],
    lastAction := some { playerId := "a", type := Act.BET, amount := some 10 },
    highestBet := 10, minRaise := 10 }

/-- C6 trace: "b" folds, then "a" folds, leaving "c" the only contender. -/
def c6AfterTwoFolds : GameActionResult :=
  (nextState c6Flop { type := Act.FOLD, playerId := some "b" }).andThen
    { type := Act.FOLD, playerId := some "a" }

/-- C6 (game-over variant): same table but "a" and "b" are already felted
(zero chips behind), so after the fold-out only "c" retains chips. -/
def c6FlopBusted : GameSnapshot :=
  { smallBlind := 5, bigBlind := 10, phase := Phase.FLOP, potSize := 30,
    currentTurn := some 2, dealerSeat := some 3,
    players := [mkPlayer "a" 1 0 10, mkPlayer "b" 2 0 0,
                mkPlayer "c" 3 50 0],
    lastAction := some { playerId := "a", type := Act.BET, amount := some 10 },
    highestBet := 10, minRaise := 10 }

/-- C6 (game-over variant) trace: "b" folds, then "a" folds. -/
def c6BustedAfterTwoFolds : GameActionResult :=
  (nextState c6FlopBusted { type := Act.FOLD, playerId := some "b" }).andThen
    { type := Act.FOLD, playerId := some "a" }

/-- C7: a two-player `HAND_OVER` snapshot in which the non-dealer
occupant "b" is still flagged folded from the hand that just ended; both
occupants are active and not sitting out (eligible). -/
def c7HandOver : GameSnapshot :=
  { smallBlind := 5, bigBlind := 10, phase := Phase.HAND_OVER, potSize := 0,
    currentTurn := none, dealerSeat := some 1,
    players := [mkPlayer "a" 1 990 0,
                { mkPlayer "b" 2 1010 0 with hasFolded := true }],
    highestBet := 0, minRaise := 10 }

/-- C9: two active players in seats 1 and 2. -/
def c9Players : List PlayerState :=
  [mkPlayer "a" 1 100 0, mkPlayer "b" 2 100 0]

/-- C10: a two-player table where "w" (seat 1) is sitting out and flagged
inactive, and "v" (seat 2) holds the turn. -/
def c10State : GameSnapshot :=
  { smallBlind := 5, bigBlind := 10, phase := Phase.FLOP, potSize := 40,
    currentTurn := some 2, dealerSeat := some 2,
    players := [{ mkPlayer "w" 1 500 0 with isSittingOut := true, isActive := false },
                mkPlayer "v" 2 600 0],
    highestBet := 0, minRaise := 10 }

/-- The snapshot of a successful result, or a fallback. -/
def GameActionResult.snapOr (r : GameActionResult) (s : GameSnapshot) :
    GameSnapshot :=
  match r with
  | .ok s2 => s2
  | .err _ => s

/-- C3/C4: a three-player pre-flop table, seat 1 to act facing a bet
of 10. -/
def c3CallState : GameSnapshot :=
  { smallBlind := 5, bigBlind := 10, phase := Phase.PREFLOP, potSize := 20,
    currentTurn := some 1, dealerSeat := some 3,
    players := [mkPlayer "a" 1 1000 0, mkPlayer "b" 2 990 10,
                mkPlayer "c" 3 995 5],
    highestBet := 10, minRaise := 10 }

/-- C4: the same table but seat 1 holds only 3 chips, fewer than the 10
needed to call. -/
def c4ShortState : GameSnapshot :=
  { smallBlind := 5, bigBlind := 10, phase := Phase.PREFLOP, potSize := 20,
    currentTurn := some 1, dealerSeat := some 3,
    players := [mkPlayer "a" 1 3 0, mkPlayer "b" 2 990 10,
                mkPlayer "c" 3 995 5],
    highestBet := 10, minRaise := 10 }

/-! ## Theorems -/

/-- C1: in a heads-up pre-flop with no raise (big blind posted, small
blind has called, so both contenders' contributions equal the big blind),
`isRoundComplete` is false while the big blind still has the option —
right after the blinds, after the big blind's first check, and after the
small blind's call — and the big blind's closing check makes the engine
close the round and advance `PREFLOP → FLOP`, zeroing `highestBet` and
every contender's current-round contribution. -/
theorem c1_heads_up_big_blind_option :
    (c1AfterBlinds.snap?.map (fun s =>
        (s.phase, s.potSize, s.highestBet, isRoundComplete s))
      = some (Phase.PREFLOP, 15, 10, false)) ∧
    ((c1AfterBlinds.andThen { type := Act.CHECK, playerId := some "p2" }).snap?.map
        (fun s => isRoundComplete s) = some false) ∧
    (c1AfterCall.snap?.map (fun s =>
        (s.phase, s.currentTurn, s.highestBet,
         (s.players.filter isContender).all
           (fun p => decide (p.currentBet = s.bigBlind)),
         isRoundComplete s))
      = some (Phase.PREFLOP, some 2, 10, true, false)) ∧
    (c1AfterClosingCheck.snap?.map (fun s =>
        (s.phase, s.highestBet,
         (s.players.filter isContender).all (fun p => decide (p.currentBet = 0))))
      = some (Phase.FLOP, 0, true)) := by
  decide

/-- C2: counterexample — in the spec's concrete scenario the dealer sits
in seat 0, which the code's JS falsy test treats as "no dealer", so the
`SMALL_BLIND` action by the seat-1 player is rejected with
`INVALID_ACTION` instead of succeeding with pot 5. -/
theorem c2_dealer_seat_zero_small_blind_rejected :
    nextState c2DealerZero { type := Act.SMALL_BLIND, playerId := some "b" }
      = .err .INVALID_ACTION := by
  decide

/-- C2 (amended): with the same table shifted to seats 1, 2, 3 and the
dealer in seat 1, `SMALL_BLIND` by the seat-2 player yields pot 5,
highestBet 5 and turn seat 3, and the subsequent `BIG_BLIND` by the
seat-3 player yields pot 15, highestBet 10, minRaise 10 and phase
`PREFLOP` — with the turn at seat 2 (the small blind), because the
first-to-act seat is computed while the phase is still `SETUP`. -/
theorem c2_blind_posting_with_seats_shifted :
    (c2AfterSmallBlind.snap?.map (fun s =>
        (s.potSize, s.highestBet, s.currentTurn)) = some (5, 5, some 3)) ∧
    (c2AfterBigBlind.snap?.map (fun s =>
        (s.potSize, s.highestBet, s.minRaise, s.currentTurn, s.phase))
      = some (15, 10, 10, some 2, Phase.PREFLOP)) := by
  decide

/-- C5: counterexample — a `SIT_OUT` action by a player who is not the
occupant of the current-turn seat succeeds (it mutates the snapshot)
instead of returning a `NOT_YOUR_TURN` error. -/
theorem c5_sit_out_ignores_turn :
    ((getCurrentPlayer c5State).map (fun p => p.id) = some "b") ∧
    ((nextState c5State { type := Act.SIT_OUT, playerId := some "c" }).isOk
      = true) := by
  decide

/-- C6: with three contenders, after two fold in sequence the remaining
contender is automatically awarded the entire pot (pot zeroed, the pot of
30 added to their stack, recorded as a `WIN` last action), and the phase
becomes `HAND_OVER`; in the variant where the two folders are left with
zero chips the phase becomes `GAMEOVER` instead (turn and dealer
cleared). -/
theorem c6_fold_out_auto_win :
    (c6AfterTwoFolds.snap?.map (fun s =>
        (s.phase, s.potSize, s.players.map (fun p => p.chipCount),
         s.lastAction))
      = some (Phase.HAND_OVER, 0, [990, 100, 80],
          some { playerId := "c", type := Act.WIN, amount := some 30 })) ∧
    (c6BustedAfterTwoFolds.snap?.map (fun s =>
        (s.phase, s.potSize, s.dealerSeat, s.currentTurn,
         s.players.map (fun p => p.chipCount)))
      = some (Phase.GAMEOVER, 0, none, none, [0, 0, 80])) := by
  decide

/-- C7: counterexample — a snapshot with two eligible occupants in seats
1 (the dealer) and 2, where the seat-2 occupant is still flagged folded
from the previous hand: `resetForNextHand` succeeds but leaves the dealer
button on seat 1 instead of advancing it to seat 2, the next
active-and-not-sitting-out occupant (the rotation helper also skips
players still flagged folded). -/
theorem c7_dealer_rotation_skips_folded :
    ((c7HandOver.players.filter isEligible).length = 2) ∧
    ((resetForNextHand c7HandOver).snap?.map (fun s => s.dealerSeat)
      = some (some 1)) ∧
    ((resetForNextHand c7HandOver).snap?.map (fun s => s.dealerSeat)
      ≠ some (some 2)) := by
  decide

/-- C9: counterexample — with two active contenders in seats 1 and 2
(k = 2), iterating `getNextActiveSeat` twice from seat 5, a seat that
belongs to no active contender, lands on seat 2, not back on seat 5. -/
theorem c9_iterate_from_inactive_seat :
    ((c9Players.filter inRotation).length = 2) ∧
    ((fun o => getNextActiveSeat c9Players o)^[2] (some 5) = some 2) ∧
    ((fun o => getNextActiveSeat c9Players o)^[2] (some 5) ≠ some 5) := by
  decide

/-- `validatePlayerTurn` is false for a non-empty player id that differs
from the id of the current-turn occupant (or when there is none). -/
theorem validatePlayerTurn_eq_false (s : GameSnapshot) (pid : String)
    (hne : pid ≠ "")
    (h : (getCurrentPlayer s).map (fun p => p.id) ≠ some pid) :
    validatePlayerTurn s (some pid) = false := by
  have hs : strFalsy (some pid) = false := by simp [strFalsy, hne]
  unfold validatePlayerTurn
  rw [hs]
  cases hcp : getCurrentPlayer s with
  | none => simp
  | some cp =>
      rw [hcp] at h
      simp only [Option.map_some', ne_eq, Option.some.injEq] at h
      simp [h]

/-- C5 (amended): for every snapshot not in `SHOWDOWN` and every turn-gated
action (`FOLD`, `CHECK`, `CALL`, `BET`, `RAISE`) carrying a non-empty
`playerId` that does not match the occupant of the current-turn seat
(`BET`/`RAISE` additionally carrying an amount), the engine returns a
`NOT_YOUR_TURN` error, which carries no snapshot.  (`SIT_OUT`, `SIT_IN`,
`WIN` and the blind postings are not turn-gated.) -/
theorem c5_turn_gated_actions_reject_wrong_player (s : GameSnapshot)
    (a : ActionIn) (pid : String)
    (htyp : a.type = Act.FOLD ∨ a.type = Act.CHECK ∨ a.type = Act.CALL ∨
      a.type = Act.BET ∨ a.type = Act.RAISE)
    (hph : s.phase ≠ Phase.SHOWDOWN)
    (hpid : a.playerId = some pid)
    (hne : pid ≠ "")
    (hamt : a.type = Act.BET ∨ a.type = Act.RAISE → a.amount ≠ none)
    (hmm : (getCurrentPlayer s).map (fun p => p.id) ≠ some pid) :
    nextState s a = .err .NOT_YOUR_TURN := by
  have hv := validatePlayerTurn_eq_false s pid hne hmm
  have hsf : strFalsy (some pid) = false := by simp [strFalsy, hne]
  rcases htyp with h | h | h | h | h
  · simp [nextState, h, handleFold, hph, hpid, hsf, hv]
  · simp [nextState, h, handleCheck, hph, hpid, hsf, hv]
  · simp [nextState, h, handleCall, hph, hpid, hsf, hv]
  · have hnone : a.amount ≠ none := hamt (Or.inl h)
    simp [nextState, h, handleRaise, hph, hpid, hsf, hv, hnone]
  · have hnone : a.amount ≠ none := hamt (Or.inr h)
    simp [nextState, h, handleRaise, hph, hpid, hsf, hv, hnone]

/-- C5 (amended) witness: on the concrete three-player table, a `FOLD` by
"c" while it is "b"'s turn is rejected with `NOT_YOUR_TURN`. -/
theorem c5_turn_gated_rejection_witness :
    nextState c5State { type := Act.FOLD, playerId := some "c" }
      = .err .NOT_YOUR_TURN :=
  c5_turn_gated_actions_reject_wrong_player c5State
    { type := Act.FOLD, playerId := some "c" } "c"
    (Or.inl rfl) (by decide) rfl (by decide) (by decide) (by decide)

/-- C10: a `SIT_IN` action naming an existing player (non-empty id) only
clears that player's sitting-out flag and records the last action: the
resulting snapshot equals the input with exactly those two updates, and
every updated player keeps their id, seat, stack, active flag,
contribution and folded flag. -/
theorem c10_sit_in_frame (s : GameSnapshot) (pid : String) (p : PlayerState)
    (hne : pid ≠ "")
    (hfind : s.players.find? (fun q => decide (some q.id = some pid)) = some p) :
    nextState s { type := Act.SIT_IN, playerId := some pid } =
      .ok { s with
        players := updateById s.players (some pid)
          (fun q => { q with isSittingOut := false })
        lastAction := some { playerId := pid, type := Act.SIT_IN } } ∧
    ∀ q ∈ updateById s.players (some pid)
        (fun q => { q with isSittingOut := false }),
      ∃ q0 ∈ s.players, q.id = q0.id ∧ q.seat = q0.seat ∧
        q.chipCount = q0.chipCount ∧ q.isActive = q0.isActive ∧
        q.currentBet = q0.currentBet ∧ q.hasFolded = q0.hasFolded := by
  constructor
  · have hsf : strFalsy (some pid) = false := by simp [strFalsy, hne]
    simp only [nextState, handleSitIn, hsf, Bool.false_eq_true, if_false]
    rw [hfind]
    simp [Option.getD]
  · intro q hq
    rcases List.mem_map.1 hq with ⟨q0, hq0, rfl⟩
    refine ⟨q0, hq0, ?_⟩
    by_cases hc : some q0.id = some pid
    · simp [hc]
    · simp [hc]

/-- C10 witness: on the concrete table, `SIT_IN` by "w" clears only "w"'s
sitting-out flag and records the action. -/
theorem c10_sit_in_frame_witness :
    nextState c10State { type := Act.SIT_IN, playerId := some "w" } =
      .ok { c10State with
        players := updateById c10State.players (some "w")
          (fun q => { q with isSittingOut := false })
        lastAction := some { playerId := "w", type := Act.SIT_IN } } :=
  (c10_sit_in_frame c10State "w"
    { mkPlayer "w" 1 500 0 with isSittingOut := true, isActive := false }
    (by decide) (by decide)).1

/-- `updateById` with an id-preserving update leaves the id list
unchanged. -/
theorem updateById_id_map (players : List PlayerState) (pid : Option String)
    (f : PlayerState → PlayerState) (hf : ∀ p, (f p).id = p.id) :
    (updateById players pid f).map (fun p => p.id)
      = players.map (fun p => p.id) := by
  simp only [updateById, List.map_map]
  apply List.map_congr_left
  intro p _
  by_cases h : some p.id = pid <;> simp [h, hf]

/-- `updateById` with a stack-preserving update leaves the total stack
unchanged. -/
theorem chipSum_updateById_const (players : List PlayerState)
    (pid : Option String) (f : PlayerState → PlayerState)
    (hf : ∀ p, (f p).chipCount = p.chipCount) :
    chipSum (updateById players pid f) = chipSum players := by
  simp only [chipSum, updateById, List.map_map]
  congr 1
  apply List.map_congr_left
  intro p _
  by_cases h : some p.id = pid <;> simp [h, hf]

/-- If no player carries the id, `updateById` is the identity. -/
theorem updateById_eq_self (players : List PlayerState) (pid : Option String)
    (f : PlayerState → PlayerState)
    (h : ∀ p ∈ players, some p.id ≠ pid) :
    updateById players pid f = players := by
  simp only [updateById]
  conv_rhs => rw [← List.map_id players]
  apply List.map_congr_left
  intro p hp
  simp [h p hp]

/-- Updating the unique player with a given id by a uniform stack delta
shifts the total stack by that delta. -/
theorem chipSum_updateById_add (players : List PlayerState) (pid : String)
    (f : PlayerState → PlayerState) (d : Int)
    (hids : (players.map (fun p => p.id)).Nodup)
    (hmem : ∃ p ∈ players, p.id = pid)
    (hf : ∀ p, (f p).chipCount = p.chipCount + d) :
    chipSum (updateById players (some pid) f) = chipSum players + d := by
  induction players with
  | nil => simp at hmem
  | cons p rest ih =>
      rw [List.map_cons, List.nodup_cons] at hids
      obtain ⟨hnotin, hndrest⟩ := hids
      rw [show updateById (p :: rest) (some pid) f
            = (if some p.id = some pid then f p else p)
                :: updateById rest (some pid) f from rfl]
      by_cases hp : p.id = pid
      · rw [if_pos (by rw [hp])]
        rw [updateById_eq_self rest (some pid) f ?hq]
        case hq =>
          intro q hq hcontra
          apply hnotin
          have hq2 : q.id = pid := by
            simpa using hcontra
          rw [hp, ← hq2]
          exact List.mem_map.2 ⟨q, hq, rfl⟩
        simp only [chipSum, List.map_cons, List.sum_cons, hf p]
        ring
      · rw [if_neg (by simp [hp])]
        rcases hmem with ⟨q, hq, hqid⟩
        rcases List.mem_cons.1 hq with rfl | hq2
        · exact absurd hqid hp
        · simp only [chipSum, List.map_cons, List.sum_cons]
          have hrec := ih hndrest ⟨q, hq2, hqid⟩
          simp only [chipSum] at hrec
          rw [hrec]
          ring

/-- `advanceToNextPhase` neither creates nor destroys chips. -/
theorem advanceToNextPhase_conserves (s s' : GameSnapshot)
    (h : advanceToNextPhase s = .ok s') : totalChips s' = totalChips s := by
  cases hp : s.phase <;>
    simp only [advanceToNextPhase, applyPhaseAdvance, hp] at h
  case SETUP | HAND_OVER | GAMEOVER => simp at h
  case SHOWDOWN =>
    injection h with h2
    subst h2
    rfl
  all_goals
    injection h with h2
    subst h2
    simp only [totalChips, chipSum, List.map_map]
    rfl

/-- The fold/check/call/raise tail (turn advance plus conditional phase
advance) neither creates nor destroys chips. -/
theorem advanceTurnAndMaybePhase_conserves (ns : GameSnapshot)
    (prevTurn : Option Int) (s' : GameSnapshot)
    (h : advanceTurnAndMaybePhase ns prevTurn = .ok s') :
    totalChips s' = totalChips ns := by
  simp only [advanceTurnAndMaybePhase] at h
  split at h
  · have h3 := advanceToNextPhase_conserves _ _ h
    exact h3
  · injection h with h2
    subst h2
    rfl

/-- `handleWin` moves the pot into the target's stack: total chips in play
are unchanged (player ids assumed unique, as in the data model). -/
theorem handleWin_conserves (s : GameSnapshot) (a : ActionIn)
    (s' : GameSnapshot)
    (hids : (s.players.map (fun p => p.id)).Nodup)
    (h : handleWin s a = .ok s') : totalChips s' = totalChips s := by
  simp only [handleWin] at h
  split at h
  · simp at h
  · rename_i hfalsy
    cases hfind : s.players.find? (fun p => decide (some p.id = a.targetPlayerId)) with
    | none => rw [hfind] at h; simp at h
    | some w =>
        simp only [hfind] at h
        have hw : some w.id = a.targetPlayerId := by
          have := List.find?_some hfind
          simpa using this
        have hmem : w ∈ s.players := List.mem_of_find?_eq_some hfind
        have hsum : chipSum (updateById s.players a.targetPlayerId
            (fun p => { p with chipCount := p.chipCount + s.potSize }))
            = chipSum s.players + s.potSize := by
          rw [← hw]
          exact chipSum_updateById_add s.players w.id _ s.potSize hids
            ⟨w, hmem, rfl⟩ (fun p => rfl)
        split at h <;>
        · injection h with h2
          subst h2
          simp only [totalChips]
          rw [hsum]
          ring

/-- `handleFold` neither creates nor destroys chips (including the
auto-win path). -/
theorem handleFold_conserves (s : GameSnapshot) (a : ActionIn)
    (s' : GameSnapshot)
    (hids : (s.players.map (fun p => p.id)).Nodup)
    (h : handleFold s a = .ok s') : totalChips s' = totalChips s := by
  simp only [handleFold, handleAutoWin] at h
  split at h
  · simp at h
  split at h
  · simp at h
  split at h
  · simp at h
  have hnd2 : ((updateById s.players a.playerId
      (fun p => { p with hasFolded := true })).map (fun p => p.id)).Nodup := by
    rw [updateById_id_map s.players a.playerId
      (fun p => { p with hasFolded := true }) (fun p => rfl)]
    exact hids
  have hcs : chipSum (updateById s.players a.playerId
      (fun p => { p with hasFolded := true })) = chipSum s.players :=
    chipSum_updateById_const s.players a.playerId
      (fun p => { p with hasFolded := true }) (fun p => rfl)
  split at h
  all_goals first
    | (have h3 := handleWin_conserves _ _ _ hnd2 h
       rw [h3]
       simp only [totalChips]
       rw [hcs])
    | (have h3 := advanceTurnAndMaybePhase_conserves _ _ _ h
       rw [h3]
       simp only [totalChips]
       rw [hcs])

/-- `handleCheck` neither creates nor destroys chips. -/
theorem handleCheck_conserves (s : GameSnapshot) (a : ActionIn)
    (s' : GameSnapshot)
    (h : handleCheck s a = .ok s') : totalChips s' = totalChips s := by
  simp only [handleCheck] at h
  split at h
  · simp at h
  split at h
  · simp at h
  split at h
  · simp at h
  split at h
  · simp at h
  split at h
  · simp at h
  have h3 := advanceTurnAndMaybePhase_conserves _ _ _ h
  exact h3

/-- `handleCall` moves the called amount from the stack to the pot: total
chips in play are unchanged. -/
theorem handleCall_conserves (s : GameSnapshot) (a : ActionIn)
    (s' : GameSnapshot)
    (hids : (s.players.map (fun p => p.id)).Nodup)
    (h : handleCall s a = .ok s') : totalChips s' = totalChips s := by
  simp only [handleCall] at h
  split at h
  · simp at h
  split at h
  · simp at h
  split at h
  · simp at h
  split at h
  · simp at h
  rename_i cp hfind
  split at h
  · simp at h
  have hpid : a.playerId = some cp.id := by
    have := List.find?_some hfind
    simp only [decide_eq_true_eq] at this
    exact this.symm
  have h3 := advanceTurnAndMaybePhase_conserves _ _ _ h
  rw [h3]
  simp only [totalChips]
  rw [hpid, chipSum_updateById_add s.players cp.id _
    (-(s.highestBet - cp.currentBet)) hids
    ⟨cp, List.mem_of_find?_eq_some hfind, rfl⟩
    (fun p => sub_eq_add_neg _ _)]
  ring

/-- `handleRaise` moves the raised amount from the stack to the pot: total
chips in play are unchanged. -/
theorem handleRaise_conserves (s : GameSnapshot) (a : ActionIn)
    (s' : GameSnapshot)
    (hids : (s.players.map (fun p => p.id)).Nodup)
    (h : handleRaise s a = .ok s') : totalChips s' = totalChips s := by
  simp only [handleRaise] at h
  split at h
  · simp at h
  split at h
  · simp at h
  split at h
  · simp at h
  split at h
  · simp at h
  rename_i cp hfind
  split at h
  · simp at h
  split at h
  · simp at h
  have hpid : a.playerId = some cp.id := by
    have := List.find?_some hfind
    simp only [decide_eq_true_eq] at this
    exact this.symm
  have h3 := advanceTurnAndMaybePhase_conserves _ _ _ h
  rw [h3]
  simp only [totalChips]
  rw [hpid, chipSum_updateById_add s.players cp.id _
    (-(a.amount.getD 0 - cp.currentBet)) hids
    ⟨cp, List.mem_of_find?_eq_some hfind, rfl⟩
    (fun p => sub_eq_add_neg _ _)]
  ring

/-- `handleSmallBlind` moves the small blind from the stack to the pot:
total chips in play are unchanged. -/
theorem handleSmallBlind_conserves (s : GameSnapshot) (a : ActionIn)
    (s' : GameSnapshot)
    (hids : (s.players.map (fun p => p.id)).Nodup)
    (h : handleSmallBlind s a = .ok s') : totalChips s' = totalChips s := by
  simp only [handleSmallBlind] at h
  split at h
  · simp at h
  split at h
  · simp at h
  rename_i sp hfind
  split at h
  · simp at h
  rename_i hid
  split at h
  · simp at h
  split at h
  · simp at h
  injection h with h2
  subst h2
  have hpid : a.playerId = some sp.id := (not_ne_iff.mp hid).symm
  simp only [totalChips]
  rw [hpid, chipSum_updateById_add s.players sp.id _ (-s.smallBlind) hids
    ⟨sp, List.mem_of_find?_eq_some hfind, rfl⟩
    (fun p => sub_eq_add_neg _ _)]
  ring

/-- `handleBigBlind` moves the big blind from the stack to the pot: total
chips in play are unchanged. -/
theorem handleBigBlind_conserves (s : GameSnapshot) (a : ActionIn)
    (s' : GameSnapshot)
    (hids : (s.players.map (fun p => p.id)).Nodup)
    (h : handleBigBlind s a = .ok s') : totalChips s' = totalChips s := by
  simp only [handleBigBlind] at h
  split at h
  · simp at h
  split at h
  · simp at h
  rename_i bp hfind
  split at h
  · simp at h
  rename_i hid
  split at h
  · simp at h
  have hpid : a.playerId = some bp.id := (not_ne_iff.mp hid).symm
  have hsum := chipSum_updateById_add s.players bp.id
    (fun p => { p with chipCount := p.chipCount - s.bigBlind
                       currentBet := s.bigBlind }) (-s.bigBlind) hids
    ⟨bp, List.mem_of_find?_eq_some hfind, rfl⟩
    (fun p => sub_eq_add_neg _ _)
  split at h <;>
  · injection h with h2
    subst h2
    simp only [totalChips]
    rw [hpid, hsum]
    ring

/-- `handleSitOut` does not touch stacks or the pot. -/
theorem handleSitOut_conserves (s : GameSnapshot) (a : ActionIn)
    (s' : GameSnapshot)
    (h : handleSitOut s a = .ok s') : totalChips s' = totalChips s := by
  simp only [handleSitOut] at h
  split at h
  · simp at h
  split at h
  · simp at h
  injection h with h2
  subst h2
  simp only [totalChips]
  rw [chipSum_updateById_const s.players a.playerId
    (fun p => { p with isSittingOut := true }) (fun p => rfl)]

/-- `handleSitIn` does not touch stacks or the pot. -/
theorem handleSitIn_conserves (s : GameSnapshot) (a : ActionIn)
    (s' : GameSnapshot)
    (h : handleSitIn s a = .ok s') : totalChips s' = totalChips s := by
  simp only [handleSitIn] at h
  split at h
  · simp at h
  split at h
  · simp at h
  injection h with h2
  subst h2
  simp only [totalChips]
  rw [chipSum_updateById_const s.players a.playerId
    (fun p => { p with isSittingOut := false }) (fun p => rfl)]

/-- C3: for every snapshot whose player ids are pairwise distinct (the
data model's identity invariant) and every accepted action, the sum of
all chip stacks plus the pot is unchanged: no action creates or destroys
chips, and `WIN` only moves the pot into a stack. -/
theorem c3_chip_conservation (s : GameSnapshot) (a : ActionIn)
    (s' : GameSnapshot)
    (hids : (s.players.map (fun p => p.id)).Nodup)
    (h : nextState s a = .ok s') :
    totalChips s' = totalChips s := by
  cases ht : a.type <;> simp only [nextState, ht] at h
  case FOLD => exact handleFold_conserves s a s' hids h
  case CHECK => exact handleCheck_conserves s a s' h
  case CALL => exact handleCall_conserves s a s' hids h
  case BET => exact handleRaise_conserves s a s' hids h
  case RAISE => exact handleRaise_conserves s a s' hids h
  case SMALL_BLIND => exact handleSmallBlind_conserves s a s' hids h
  case BIG_BLIND => exact handleBigBlind_conserves s a s' hids h
  case WIN => exact handleWin_conserves s a s' hids h
  case SIT_OUT => exact handleSitOut_conserves s a s' h
  case SIT_IN => exact handleSitIn_conserves s a s' h

/-- C3 witness: on the concrete pre-flop table, the accepted `CALL` by
seat 1 leaves total chips in play unchanged. -/
theorem c3_chip_conservation_witness :
    totalChips ((nextState c3CallState
        { type := Act.CALL, playerId := some "a" }).snapOr c3CallState)
      = totalChips c3CallState :=
  c3_chip_conservation c3CallState
    { type := Act.CALL, playerId := some "a" } _ (by decide) (by decide)

/-- Members of a player list with pairwise distinct ids are determined by
their id. -/
theorem eq_of_nodup_ids (players : List PlayerState)
    (hids : (players.map (fun p => p.id)).Nodup)
    (p q : PlayerState) (hp : p ∈ players) (hq : q ∈ players)
    (h : p.id = q.id) : p = q :=
  List.inj_on_of_nodup_map hids hp hq h

/-- Pointwise non-negativity for `updateById`. -/
theorem nonneg_updateById_pointwise (players : List PlayerState)
    (pid : Option String) (f : PlayerState → PlayerState)
    (h : ∀ p ∈ players, 0 ≤ p.chipCount ∧ 0 ≤ (f p).chipCount) :
    ∀ q ∈ updateById players pid f, 0 ≤ q.chipCount := by
  intro q hq
  rcases List.mem_map.1 hq with ⟨p, hp, rfl⟩
  by_cases hpe : some p.id = pid
  · rw [if_pos hpe]
    exact (h p hp).2
  · rw [if_neg hpe]
    exact (h p hp).1

/-- Non-negativity for `updateById` when only the unique player carrying
the id is known to stay non-negative. -/
theorem nonneg_updateById_unique (players : List PlayerState) (cp : PlayerState)
    (f : PlayerState → PlayerState)
    (hids : (players.map (fun p => p.id)).Nodup)
    (hmem : cp ∈ players)
    (hnn : ∀ p ∈ players, 0 ≤ p.chipCount)
    (hcp : 0 ≤ (f cp).chipCount) :
    ∀ q ∈ updateById players (some cp.id) f, 0 ≤ q.chipCount := by
  intro q hq
  rcases List.mem_map.1 hq with ⟨p, hp, rfl⟩
  by_cases hpe : some p.id = some cp.id
  · have hpp : p = cp := by
      apply eq_of_nodup_ids players hids p cp hp hmem
      simpa using hpe
    rw [if_pos hpe, hpp]
    exact hcp
  · rw [if_neg hpe]
    exact hnn p hp

/-- `advanceToNextPhase` preserves non-negativity of all stacks. -/
theorem advanceToNextPhase_nonneg (s s' : GameSnapshot)
    (hnn : allStacksNonneg s)
    (h : advanceToNextPhase s = .ok s') : allStacksNonneg s' := by
  cases hp : s.phase <;>
    simp only [advanceToNextPhase, applyPhaseAdvance, hp] at h
  case SETUP | HAND_OVER | GAMEOVER => simp at h
  case SHOWDOWN =>
    injection h with h2
    subst h2
    exact hnn
  all_goals
    injection h with h2
    subst h2
    intro q hq
    rcases List.mem_map.1 hq with ⟨p, hp2, rfl⟩
    exact hnn p hp2

/-- The fold/check/call/raise tail preserves non-negativity of all
stacks. -/
theorem advanceTurnAndMaybePhase_nonneg (ns : GameSnapshot)
    (prevTurn : Option Int) (s' : GameSnapshot)
    (hnn : allStacksNonneg ns)
    (h : advanceTurnAndMaybePhase ns prevTurn = .ok s') :
    allStacksNonneg s' := by
  simp only [advanceTurnAndMaybePhase] at h
  split at h
  · refine advanceToNextPhase_nonneg _ _ ?_ h
    exact hnn
  · injection h with h2
    subst h2
    exact hnn

/-- `handleWin` preserves non-negativity of all stacks when the pot is
non-negative. -/
theorem handleWin_nonneg (s : GameSnapshot) (a : ActionIn) (s' : GameSnapshot)
    (hnn : allStacksNonneg s) (hpot : 0 ≤ s.potSize)
    (h : handleWin s a = .ok s') : allStacksNonneg s' := by
  simp only [handleWin] at h
  split at h
  · simp at h
  cases hfind : s.players.find? (fun p => decide (some p.id = a.targetPlayerId)) with
  | none => rw [hfind] at h; simp at h
  | some w =>
      simp only [hfind] at h
      have hup : ∀ q ∈ updateById s.players a.targetPlayerId
          (fun p => { p with chipCount := p.chipCount + s.potSize }),
          0 ≤ q.chipCount := by
        apply nonneg_updateById_pointwise
        intro p hp
        refine ⟨hnn p hp, ?_⟩
        have := hnn p hp
        simp only []
        omega
      split at h <;>
      · injection h with h2
        subst h2
        exact hup

/-- `handleFold` preserves non-negativity of all stacks. -/
theorem handleFold_nonneg (s : GameSnapshot) (a : ActionIn) (s' : GameSnapshot)
    (hnn : allStacksNonneg s) (hpot : 0 ≤ s.potSize)
    (h : handleFold s a = .ok s') : allStacksNonneg s' := by
  simp only [handleFold, handleAutoWin] at h
  split at h
  · simp at h
  split at h
  · simp at h
  split at h
  · simp at h
  have hnn2 : ∀ q ∈ updateById s.players a.playerId
      (fun p => { p with hasFolded := true }), 0 ≤ q.chipCount := by
    apply nonneg_updateById_pointwise
    intro p hp
    exact ⟨hnn p hp, hnn p hp⟩
  split at h
  all_goals first
    | (refine handleWin_nonneg _ _ _ ?_ ?_ h
       · exact hnn2
       · exact hpot)
    | (refine advanceTurnAndMaybePhase_nonneg _ _ _ ?_ h
       exact hnn2)

/-- `handleCheck` preserves non-negativity of all stacks. -/
theorem handleCheck_nonneg (s : GameSnapshot) (a : ActionIn) (s' : GameSnapshot)
    (hnn : allStacksNonneg s)
    (h : handleCheck s a = .ok s') : allStacksNonneg s' := by
  simp only [handleCheck] at h
  split at h
  · simp at h
  split at h
  · simp at h
  split at h
  · simp at h
  split at h
  · simp at h
  split at h
  · simp at h
  refine advanceTurnAndMaybePhase_nonneg _ _ _ ?_ h
  exact hnn

/-- An accepted `handleCall` leaves every stack non-negative. -/
theorem handleCall_nonneg (s : GameSnapshot) (a : ActionIn) (s' : GameSnapshot)
    (hids : (s.players.map (fun p => p.id)).Nodup)
    (hnn : allStacksNonneg s)
    (h : handleCall s a = .ok s') : allStacksNonneg s' := by
  simp only [handleCall] at h
  split at h
  · simp at h
  split at h
  · simp at h
  split at h
  · simp at h
  split at h
  · simp at h
  rename_i cp hfind
  split at h
  · simp at h
  rename_i hge
  have hpid : a.playerId = some cp.id := by
    have := List.find?_some hfind
    simp only [decide_eq_true_eq] at this
    exact this.symm
  refine advanceTurnAndMaybePhase_nonneg _ _ _ ?_ h
  intro q hq
  rw [hpid] at hq
  refine nonneg_updateById_unique s.players cp _ hids
    (List.mem_of_find?_eq_some hfind) hnn ?_ q hq
  simp only []
  omega

/-- An accepted `handleRaise` leaves every stack non-negative. -/
theorem handleRaise_nonneg (s : GameSnapshot) (a : ActionIn) (s' : GameSnapshot)
    (hids : (s.players.map (fun p => p.id)).Nodup)
    (hnn : allStacksNonneg s)
    (h : handleRaise s a = .ok s') : allStacksNonneg s' := by
  simp only [handleRaise] at h
  split at h
  · simp at h
  split at h
  · simp at h
  split at h
  · simp at h
  split at h
  · simp at h
  rename_i cp hfind
  split at h
  · simp at h
  split at h
  · simp at h
  rename_i hge
  have hpid : a.playerId = some cp.id := by
    have := List.find?_some hfind
    simp only [decide_eq_true_eq] at this
    exact this.symm
  refine advanceTurnAndMaybePhase_nonneg _ _ _ ?_ h
  intro q hq
  rw [hpid] at hq
  refine nonneg_updateById_unique s.players cp _ hids
    (List.mem_of_find?_eq_some hfind) hnn ?_ q hq
  simp only []
  omega

/-- An accepted `handleSmallBlind` leaves every stack non-negative. -/
theorem handleSmallBlind_nonneg (s : GameSnapshot) (a : ActionIn)
    (s' : GameSnapshot)
    (hids : (s.players.map (fun p => p.id)).Nodup)
    (hnn : allStacksNonneg s)
    (h : handleSmallBlind s a = .ok s') : allStacksNonneg s' := by
  simp only [handleSmallBlind] at h
  split at h
  · simp at h
  split at h
  · simp at h
  rename_i sp hfind
  split at h
  · simp at h
  rename_i hid
  split at h
  · simp at h
  rename_i hge
  split at h
  · simp at h
  injection h with h2
  subst h2
  have hpid : a.playerId = some sp.id := (not_ne_iff.mp hid).symm
  intro q hq
  simp only [] at hq
  rw [hpid] at hq
  refine nonneg_updateById_unique s.players sp _ hids
    (List.mem_of_find?_eq_some hfind) hnn ?_ q hq
  simp only []
  omega

/-- An accepted `handleBigBlind` leaves every stack non-negative. -/
theorem handleBigBlind_nonneg (s : GameSnapshot) (a : ActionIn)
    (s' : GameSnapshot)
    (hids : (s.players.map (fun p => p.id)).Nodup)
    (hnn : allStacksNonneg s)
    (h : handleBigBlind s a = .ok s') : allStacksNonneg s' := by
  simp only [handleBigBlind] at h
  split at h
  · simp at h
  split at h
  · simp at h
  rename_i bp hfind
  split at h
  · simp at h
  rename_i hid
  split at h
  · simp at h
  rename_i hge
  have hpid : a.playerId = some bp.id := (not_ne_iff.mp hid).symm
  have hup : ∀ q ∈ updateById s.players a.playerId
      (fun p => { p with chipCount := p.chipCount - s.bigBlind
                         currentBet := s.bigBlind }), 0 ≤ q.chipCount := by
    intro q hq
    rw [hpid] at hq
    refine nonneg_updateById_unique s.players bp _ hids
      (List.mem_of_find?_eq_some hfind) hnn ?_ q hq
    simp only []
    omega
  split at h <;>
  · injection h with h2
    subst h2
    exact hup

/-- `handleSitOut` preserves non-negativity of all stacks. -/
theorem handleSitOut_nonneg (s : GameSnapshot) (a : ActionIn)
    (s' : GameSnapshot)
    (hnn : allStacksNonneg s)
    (h : handleSitOut s a = .ok s') : allStacksNonneg s' := by
  simp only [handleSitOut] at h
  split at h
  · simp at h
  split at h
  · simp at h
  injection h with h2
  subst h2
  apply nonneg_updateById_pointwise
  intro p hp
  exact ⟨hnn p hp, hnn p hp⟩

/-- `handleSitIn` preserves non-negativity of all stacks. -/
theorem handleSitIn_nonneg (s : GameSnapshot) (a : ActionIn)
    (s' : GameSnapshot)
    (hnn : allStacksNonneg s)
    (h : handleSitIn s a = .ok s') : allStacksNonneg s' := by
  simp only [handleSitIn] at h
  split at h
  · simp at h
  split at h
  · simp at h
  injection h with h2
  subst h2
  apply nonneg_updateById_pointwise
  intro p hp
  exact ⟨hnn p hp, hnn p hp⟩

/-- C4: on a snapshot with non-negative stacks and pot and pairwise
distinct player ids (the data model's invariants), a `CALL`, `BET`,
`RAISE`, `SMALL_BLIND` or `BIG_BLIND` that asks for more chips than the
acting player has is rejected with `INSUFFICIENT_FUNDS` (not clamped),
and every accepted action leaves all stacks non-negative. -/
theorem c4_no_negative_stacks (s : GameSnapshot) (a : ActionIn)
    (hids : (s.players.map (fun p => p.id)).Nodup)
    (hnn : allStacksNonneg s)
    (hpot : 0 ≤ s.potSize) :
    (insufficientChipsRequest s a = true →
      nextState s a = .err .INSUFFICIENT_FUNDS) ∧
    (∀ s', nextState s a = .ok s' → allStacksNonneg s') := by
  constructor
  · intro hins
    cases ht : a.type <;> simp only [insufficientChipsRequest, ht] at hins
    case FOLD | CHECK | WIN | SIT_OUT | SIT_IN => simp at hins
    case CALL =>
      rw [Bool.and_eq_true, Bool.and_eq_true, Bool.and_eq_true] at hins
      obtain ⟨⟨⟨h1, h2⟩, h3⟩, h4⟩ := hins
      simp only [decide_eq_true_eq] at h1
      rw [Bool.not_eq_true'] at h2
      cases hfind : s.players.find? (fun p => decide (some p.id = a.playerId)) with
      | none => rw [hfind] at h4; simp at h4
      | some cp =>
          rw [hfind] at h4
          simp only [decide_eq_true_eq] at h4
          simp [nextState, ht, handleCall, h1, h2, h3, hfind, h4]
    case BET | RAISE =>
      rw [Bool.and_eq_true, Bool.and_eq_true, Bool.and_eq_true] at hins
      obtain ⟨⟨⟨h1, h2⟩, h3⟩, h4⟩ := hins
      simp only [decide_eq_true_eq] at h1
      rw [Bool.not_eq_true', Bool.or_eq_false_iff] at h2
      obtain ⟨h2a, h2b⟩ := h2
      rw [decide_eq_false_iff_not] at h2b
      cases hfind : s.players.find? (fun p => decide (some p.id = a.playerId)) with
      | none => rw [hfind] at h4; simp at h4
      | some cp =>
          rw [hfind] at h4
          rw [Bool.and_eq_true] at h4
          obtain ⟨h5, h6⟩ := h4
          rw [Bool.not_eq_true', decide_eq_false_iff_not] at h5
          simp only [decide_eq_true_eq] at h6
          simp [nextState, ht, handleRaise, h1, h2a, h2b, h3, hfind, h5, h6]
    case SMALL_BLIND =>
      rw [Bool.and_eq_true] at hins
      obtain ⟨h2, h4⟩ := hins
      rw [Bool.not_eq_true'] at h2
      cases hfind : s.players.find? (fun p =>
          decide (some p.seat = getSmallBlindSeat s)) with
      | none => rw [hfind] at h4; simp at h4
      | some sp =>
          rw [hfind] at h4
          rw [Bool.and_eq_true] at h4
          obtain ⟨h5, h6⟩ := h4
          simp only [decide_eq_true_eq] at h5 h6
          simp [nextState, ht, handleSmallBlind, h2, hfind, h5, h6]
    case BIG_BLIND =>
      rw [Bool.and_eq_true] at hins
      obtain ⟨h2, h4⟩ := hins
      rw [Bool.not_eq_true'] at h2
      cases hfind : s.players.find? (fun p =>
          decide (some p.seat = getBigBlindSeat s (getSmallBlindSeat s))) with
      | none => rw [hfind] at h4; simp at h4
      | some bp =>
          rw [hfind] at h4
          rw [Bool.and_eq_true] at h4
          obtain ⟨h5, h6⟩ := h4
          simp only [decide_eq_true_eq] at h5 h6
          simp [nextState, ht, handleBigBlind, h2, hfind, h5, h6]
  · intro s' h
    cases ht : a.type <;> simp only [nextState, ht] at h
    case FOLD => exact handleFold_nonneg s a s' hnn hpot h
    case CHECK => exact handleCheck_nonneg s a s' hnn h
    case CALL => exact handleCall_nonneg s a s' hids hnn h
    case BET => exact handleRaise_nonneg s a s' hids hnn h
    case RAISE => exact handleRaise_nonneg s a s' hids hnn h
    case SMALL_BLIND => exact handleSmallBlind_nonneg s a s' hids hnn h
    case BIG_BLIND => exact handleBigBlind_nonneg s a s' hids hnn h
    case WIN => exact handleWin_nonneg s a s' hnn hpot h
    case SIT_OUT => exact handleSitOut_nonneg s a s' hnn h
    case SIT_IN => exact handleSitIn_nonneg s a s' hnn h

/-- C4 witness: on the concrete table where seat 1 holds 3 chips facing a
bet of 10, the `CALL` is rejected with `INSUFFICIENT_FUNDS`. -/
theorem c4_no_negative_stacks_witness :
    nextState c4ShortState { type := Act.CALL, playerId := some "a" }
      = .err .INSUFFICIENT_FUNDS :=
  (c4_no_negative_stacks c4ShortState
    { type := Act.CALL, playerId := some "a" }
    (by decide) (by unfold allStacksNonneg; decide) (by decide)).1 (by decide)

/-- The sorted rotation list is a permutation of the filtered list. -/
theorem sortedRotation_perm (players : List PlayerState) :
    (sortedRotation players).Perm (players.filter inRotation) :=
  List.perm_insertionSort seatLE (players.filter inRotation)

/-- The seats of the sorted rotation list are pairwise non-decreasing. -/
theorem sortedRotation_seats_le (players : List PlayerState) :
    ((sortedRotation players).map (fun p => p.seat)).Pairwise (· ≤ ·) := by
  refine List.Pairwise.map (fun p : PlayerState => p.seat) (fun a b hab => hab) ?_
  exact List.sorted_insertionSort seatLE (players.filter inRotation)

/-- Distinctness of the rotation seats carries over to the sorted list. -/
theorem sortedRotation_seats_nodup (players : List PlayerState)
    (hnd : ((players.filter inRotation).map (fun p => p.seat)).Nodup) :
    ((sortedRotation players).map (fun p => p.seat)).Nodup :=
  (((sortedRotation_perm players).map (fun p => p.seat)).nodup_iff).mpr hnd

/-- With distinct seats the sorted rotation seats are strictly
increasing. -/
theorem sortedRotation_seats_lt (players : List PlayerState)
    (hnd : ((players.filter inRotation).map (fun p => p.seat)).Nodup) :
    ((sortedRotation players).map (fun p => p.seat)).Pairwise (· < ·) :=
  ((sortedRotation_seats_le players).and
    (sortedRotation_seats_nodup players hnd)).imp
    (fun h => lt_of_le_of_ne h.1 h.2)

/-- `min?` of an integer list containing a lower bound of its members. -/
theorem int_min?_eq_some (l : List Int) (a : Int) (ha : a ∈ l)
    (hle : ∀ b ∈ l, a ≤ b) : l.min? = some a := by
  haveI : Std.Antisymm (fun x1 x2 : Int => x1 ≤ x2) :=
    ⟨@fun x y h h2 => le_antisymm h h2⟩
  rw [List.min?_eq_some_iff]
  · exact ⟨ha, hle⟩
  · exact fun x => le_refl x
  · exact fun x y => min_choice x y
  · exact fun x y z => le_min_iff

/-- `findIdx?` over a list whose images under `f` are distinct finds the
index of any element by its image. -/
theorem findIdx?_map_inj {α β : Type} [DecidableEq β] (f : α → β)
    (l : List α) (hnd : (l.map f).Nodup) (i : Nat) (hi : i < l.length) :
    List.findIdx? (fun x => decide (f x = f (l.get ⟨i, hi⟩))) l = some i := by
  induction l generalizing i with
  | nil => simp at hi
  | cons p rest ih =>
      rw [List.map_cons, List.nodup_cons] at hnd
      cases i with
      | zero =>
          rw [List.findIdx?_cons]
          simp
      | succ j =>
          have hj : j < rest.length := by simpa using hi
          have hget : (p :: rest).get ⟨j + 1, hi⟩ = rest.get ⟨j, hj⟩ := rfl
          rw [hget, List.findIdx?_cons]
          have hne : f p ≠ f (rest.get ⟨j, hj⟩) := by
            intro he
            apply hnd.1
            rw [he]
            exact List.mem_map.2 ⟨rest.get ⟨j, hj⟩, List.get_mem rest j hj, rfl⟩
          rw [if_neg (by simpa using hne), List.findIdx?_succ, ih hnd.2 j hj]
          rfl

/-- `findIdx?` variant taking the looked-up element as an argument. -/
theorem findIdx?_map_inj_of_eq {α β : Type} [DecidableEq β] (f : α → β)
    (l : List α) (hnd : (l.map f).Nodup) (i : Nat) (hi : i < l.length)
    (x : α) (hx : l.get ⟨i, hi⟩ = x) :
    List.findIdx? (fun y => decide (f y = f x)) l = some i := by
  subst hx
  exact findIdx?_map_inj f l hnd i hi

/-- One application of `getNextActiveSeat` from the seat at index `i` of
the sorted rotation list moves to index `(i+1) mod n`. -/
theorem getNextActiveSeat_step (players : List PlayerState)
    (hnd : ((players.filter inRotation).map (fun p => p.seat)).Nodup)
    (i : Nat) (hi : i < (sortedRotation players).length) (q0 : PlayerState) :
    getNextActiveSeat players (some (((sortedRotation players).getD i q0).seat))
      = some (((sortedRotation players).getD
          ((i + 1) % (sortedRotation players).length) q0).seat) := by
  have hnd2 := sortedRotation_seats_nodup players hnd
  cases hl : sortedRotation players with
  | nil => rw [hl] at hi; simp at hi
  | cons q rest =>
      rw [hl] at hi hnd2
      have hlen : 0 < (q :: rest).length := by simp
      have hlt : (i + 1) % (q :: rest).length < (q :: rest).length :=
        Nat.mod_lt _ hlen
      simp only [getNextActiveSeat, hl]
      rw [findIdx?_map_inj_of_eq (fun p => p.seat) (q :: rest) hnd2 i hi
        ((q :: rest).getD i q0) ((List.getD_eq_getElem _ _ hi).symm)]
      show some (((q :: rest).getD ((i + 1) % (q :: rest).length) q).seat)
        = some (((q :: rest).getD ((i + 1) % (q :: rest).length) q0).seat)
      rw [List.getD_eq_getElem _ _ hlt, List.getD_eq_getElem _ _ hlt]

/-- Iterating `getNextActiveSeat` `m` times from index `i` of the sorted
rotation list lands on index `(i+m) mod n`. -/
theorem getNextActiveSeat_iterate (players : List PlayerState)
    (hnd : ((players.filter inRotation).map (fun p => p.seat)).Nodup)
    (m i : Nat) (hi : i < (sortedRotation players).length) (q0 : PlayerState) :
    (fun o => getNextActiveSeat players o)^[m]
        (some (((sortedRotation players).getD i q0).seat))
      = some (((sortedRotation players).getD
          ((i + m) % (sortedRotation players).length) q0).seat) := by
  induction m generalizing i with
  | zero =>
      simp only [Function.iterate_zero, id]
      rw [Nat.add_zero, Nat.mod_eq_of_lt hi]
  | succ m ih =>
      have hpos : 0 < (sortedRotation players).length :=
        lt_of_le_of_lt (Nat.zero_le i) hi
      have hlt : (i + 1) % (sortedRotation players).length
          < (sortedRotation players).length := Nat.mod_lt _ hpos
      rw [Function.iterate_succ_apply]
      rw [getNextActiveSeat_step players hnd i hi q0]
      rw [ih ((i + 1) % (sortedRotation players).length) hlt]
      have hidx : ((i + 1) % (sortedRotation players).length + m)
            % (sortedRotation players).length
          = (i + (m + 1)) % (sortedRotation players).length := by
        rw [Nat.mod_add_mod]
        congr 1
        omega
      rw [hidx]

/-- C9 (amended): for every player list whose active contenders occupy
pairwise distinct seats and every starting seat belonging to one of them,
iterating `getNextActiveSeat` k times (k = number of active contenders)
returns the starting seat. -/
theorem c9_rotation_is_circular (players : List PlayerState) (c : Int)
    (hnd : ((players.filter inRotation).map (fun p => p.seat)).Nodup)
    (hc : c ∈ (players.filter inRotation).map (fun p => p.seat)) :
    (fun o => getNextActiveSeat players o)^[(players.filter inRotation).length]
        (some c) = some c := by
  have hperm := (sortedRotation_perm players).map (fun p : PlayerState => p.seat)
  have hc2 : c ∈ (sortedRotation players).map (fun p => p.seat) :=
    hperm.mem_iff.mpr hc
  rcases List.mem_iff_getElem.1 hc2 with ⟨i, hi, hci⟩
  have hi2 : i < (sortedRotation players).length := by
    simpa using hi
  have hflen : (players.filter inRotation).length
      = (sortedRotation players).length :=
    ((sortedRotation_perm players).length_eq).symm
  rw [List.getElem_map] at hci
  have hc4 : ((sortedRotation players).getD i (mkPlayer "" 0 0 0)).seat = c := by
    rw [List.getD_eq_getElem _ _ hi2]
    exact hci
  rw [← hc4, hflen,
    getNextActiveSeat_iterate players hnd _ i hi2 (mkPlayer "" 0 0 0),
    Nat.add_mod_right, Nat.mod_eq_of_lt hi2]

/-- C9 (amended) witness: with two active contenders in seats 1 and 2,
two iterations from seat 1 return to seat 1. -/
theorem c9_rotation_is_circular_witness :
    (fun o => getNextActiveSeat c9Players o)^[(c9Players.filter inRotation).length]
        (some 1) = some 1 :=
  c9_rotation_is_circular c9Players 1 (by decide) (by decide)

/-- `findIdx?` by seat on a list with distinct seats finds the index of
the seat. -/
theorem findIdx?_seat_eq (l : List PlayerState)
    (hnd : (l.map (fun p => p.seat)).Nodup)
    (i : Nat) (hi : i < l.length) (c : Int)
    (hc : (l.map (fun p => p.seat)).getD i 0 = c) :
    List.findIdx? (fun p => decide (p.seat = c)) l = some i := by
  subst hc
  have hmi : i < (l.map (fun p => p.seat)).length := by simpa using hi
  have hx : (l.map (fun p => p.seat)).getD i 0 = (l.get ⟨i, hi⟩).seat := by
    rw [List.getD_eq_getElem _ _ hmi, List.getElem_map]
    rfl
  rw [hx]
  exact findIdx?_map_inj (fun p => p.seat) l hnd i hi

/-- `getNextActiveSeat` refines the spec's description: over the players
that are active, not folded and not sitting out, it returns the least
seat greater than `fromSeat` (wrapping to the least seat overall), the
least seat when `fromSeat` is absent or not among them, and `none`
exactly when there are no such players. -/
theorem nextActiveSeat_refines_spec (players : List PlayerState)
    (fromSeat : Option Int)
    (hnd : ((players.filter inRotation).map (fun p => p.seat)).Nodup) :
    getNextActiveSeat players fromSeat = specNextActiveSeat players fromSeat := by
  cases hl : sortedRotation players with
  | nil =>
      have hnil : players.filter inRotation = [] :=
        ((hl ▸ sortedRotation_perm players).symm).eq_nil
      simp only [getNextActiveSeat, hl, specNextActiveSeat, hnil]
      cases fromSeat <;> simp
  | cons q rest =>
      have hperm2 : ((q :: rest).map (fun p => p.seat)).Perm
          ((players.filter inRotation).map (fun p => p.seat)) := by
        rw [← hl]
        exact (sortedRotation_perm players).map _
      have hnd2 : ((q :: rest).map (fun p => p.seat)).Nodup := by
        rw [← hl]
        exact sortedRotation_seats_nodup players hnd
      have hle2 : ((q :: rest).map (fun p => p.seat)).Pairwise (· ≤ ·) := by
        rw [← hl]
        exact sortedRotation_seats_le players
      have hlt2 : ((q :: rest).map (fun p => p.seat)).Pairwise (· < ·) := by
        rw [← hl]
        exact sortedRotation_seats_lt players hnd
      have hle3 := List.pairwise_iff_getElem.1 hle2
      have hlt3 := List.pairwise_iff_getElem.1 hlt2
      have hmlen : ((q :: rest).map (fun p => p.seat)).length
          = (q :: rest).length := by simp
      have hmin : ((players.filter inRotation).map (fun p => p.seat)).min?
          = some q.seat := by
        apply int_min?_eq_some
        · exact hperm2.mem_iff.mp (by simp)
        · intro b hb
          have hb2 : b ∈ (q :: rest).map (fun p => p.seat) :=
            hperm2.mem_iff.mpr hb
          rw [List.map_cons, List.mem_cons] at hb2
          rcases hb2 with rfl | hb3
          · exact le_refl _
          · rw [List.map_cons] at hle2
            exact (List.pairwise_cons.1 hle2).1 b hb3
      cases fromSeat with
      | none =>
          simp only [getNextActiveSeat, hl, specNextActiveSeat]
          rw [hmin]
      | some c =>
          by_cases hcmem : c ∈ (players.filter inRotation).map (fun p => p.seat)
          · have hc2 : c ∈ (q :: rest).map (fun p => p.seat) :=
              hperm2.mem_iff.mpr hcmem
            rcases List.mem_iff_getElem.1 hc2 with ⟨i, hmi, hci⟩
            have hi : i < (q :: rest).length := by simpa using hmi
            have hciD : ((q :: rest).map (fun p => p.seat)).getD i 0 = c := by
              rw [List.getD_eq_getElem _ _ hmi]
              exact hci
            simp only [getNextActiveSeat, hl, specNextActiveSeat]
            rw [findIdx?_seat_eq (q :: rest) hnd2 i hi c hciD, if_pos hcmem]
            rcases Nat.lt_or_ge (i + 1) ((q :: rest).length) with hsucc | hsucc
            · -- a strictly greater seat exists: the one at index i+1
              have hmsucc : i + 1 < ((q :: rest).map (fun p => p.seat)).length := by
                simpa using hsucc
              have hfmin : (((players.filter inRotation).map
                    (fun p => p.seat)).filter (fun t => decide (c < t))).min?
                  = some (((q :: rest).map (fun p => p.seat)).getD (i + 1) 0) := by
                apply int_min?_eq_some
                · rw [List.mem_filter]
                  constructor
                  · apply hperm2.mem_iff.mp
                    rw [List.getD_eq_getElem _ _ hmsucc]
                    exact List.getElem_mem hmsucc
                  · rw [List.getD_eq_getElem _ _ hmsucc, ← hci]
                    simpa using hlt3 i (i + 1) hmi hmsucc (Nat.lt_succ_self i)
                · intro b hb
                  rw [List.mem_filter] at hb
                  obtain ⟨hb1, hb2⟩ := hb
                  rw [decide_eq_true_eq] at hb2
                  have hb3 : b ∈ (q :: rest).map (fun p => p.seat) :=
                    hperm2.mem_iff.mpr hb1
                  rcases List.mem_iff_getElem.1 hb3 with ⟨j, hmj, hbj⟩
                  rw [List.getD_eq_getElem _ _ hmsucc]
                  rcases Nat.lt_or_ge j (i + 1) with hji | hji
                  · exfalso
                    rcases Nat.lt_or_ge j i with hji2 | hji2
                    · have := hlt3 j i hmj hmi hji2
                      rw [hbj, hci] at this
                      omega
                    · have hjei : j = i := by omega
                      subst hjei
                      rw [hci] at hbj
                      omega
                  · rcases Nat.eq_or_lt_of_le hji with hje | hjl
                    · subst hje
                      rw [← hbj]
                    · rw [← hbj]
                      exact hle3 (i + 1) j hmsucc hmj hjl
              rw [hfmin]
              have hmod : (i + 1) % (q :: rest).length = i + 1 :=
                Nat.mod_eq_of_lt hsucc
              show some (((q :: rest).getD ((i + 1) % (q :: rest).length) q).seat)
                = some (((q :: rest).map (fun p => p.seat)).getD (i + 1) 0)
              rw [hmod, List.getD_eq_getElem _ _ hsucc,
                List.getD_eq_getElem _ _ hmsucc, List.getElem_map]
            · -- `c` is the greatest seat: wrap to the least
              have hfnil : ((players.filter inRotation).map
                    (fun p => p.seat)).filter (fun t => decide (c < t)) = [] := by
                rw [List.filter_eq_nil_iff]
                intro b hb
                have hb3 : b ∈ (q :: rest).map (fun p => p.seat) :=
                  hperm2.mem_iff.mpr hb
                rcases List.mem_iff_getElem.1 hb3 with ⟨j, hmj, hbj⟩
                rw [decide_eq_true_eq]
                have hji : j ≤ i := by
                  have := hmlen ▸ hmj
                  omega
                rcases Nat.eq_or_lt_of_le hji with hje | hjl
                · subst hje
                  rw [hci] at hbj
                  omega
                · have := hlt3 j i hmj hmi hjl
                  rw [hbj, hci] at this
                  omega
              rw [hfnil, List.min?_nil, hmin]
              have hlen0 : (q :: rest).length = i + 1 := by
                have := hi
                omega
              have hmod : (i + 1) % (q :: rest).length = 0 := by
                rw [hlen0]
                exact Nat.mod_self _
              show some (((q :: rest).getD ((i + 1) % (q :: rest).length) q).seat)
                = some q.seat
              rw [hmod]
              rfl
          · simp only [getNextActiveSeat, hl, specNextActiveSeat]
            have hnone : List.findIdx? (fun p => decide (p.seat = c)) (q :: rest)
                = none := by
              rw [List.findIdx?_eq_none_iff]
              intro x hx
              rw [decide_eq_false_iff_not]
              intro he
              apply hcmem
              apply hperm2.mem_iff.mp
              rw [← he]
              exact List.mem_map.2 ⟨x, hx, rfl⟩
            rw [hnone, if_neg hcmem, hmin]

/-- `getNextActiveSeat` returns `none` exactly when there are no active,
unfolded, non-sitting-out players. -/
theorem getNextActiveSeat_eq_none_iff (players : List PlayerState)
    (fromSeat : Option Int) :
    getNextActiveSeat players fromSeat = none ↔
      players.filter inRotation = [] := by
  constructor
  · intro h
    cases hl : sortedRotation players with
    | nil => exact ((hl ▸ sortedRotation_perm players).symm).eq_nil
    | cons q rest =>
        simp only [getNextActiveSeat, hl] at h
        cases fromSeat with
        | none => simp at h
        | some c =>
            cases hf : List.findIdx? (fun p => decide (p.seat = c)) (q :: rest) with
            | none => simp only [hf] at h; simp at h
            | some i => simp only [hf] at h; simp at h
  · intro h
    have hs : sortedRotation players = [] := by
      simp [sortedRotation, h]
    simp only [getNextActiveSeat, hs]

/-- C8: over the players that are active, not folded and not sitting out
(with pairwise distinct seats, per the data model), `getNextActiveSeat`
returns the seat immediately after `fromSeat` in circular order — the
least seat greater than `fromSeat`, wrapping to the least seat overall —
the first (least) active seat when `fromSeat` is `none` or not among
them, and `none` exactly when no such players exist. -/
theorem c8_next_active_seat_spec (players : List PlayerState)
    (fromSeat : Option Int)
    (hnd : ((players.filter inRotation).map (fun p => p.seat)).Nodup) :
    getNextActiveSeat players fromSeat = specNextActiveSeat players fromSeat ∧
    (getNextActiveSeat players fromSeat = none ↔
      players.filter inRotation = []) :=
  ⟨nextActiveSeat_refines_spec players fromSeat hnd,
   getNextActiveSeat_eq_none_iff players fromSeat⟩

/-- C8 witness: with active contenders in seats 1 and 2, the helper and
the spec description agree starting from seat 1. -/
theorem c8_next_active_seat_spec_witness :
    getNextActiveSeat c9Players (some 1) = specNextActiveSeat c9Players (some 1) ∧
    (getNextActiveSeat c9Players (some 1) = none ↔
      c9Players.filter inRotation = []) :=
  c8_next_active_seat_spec c9Players (some 1) (by decide)

/-- C7 (amended): `resetForNextHand` fails with `NOT_ENOUGH_PLAYERS` when
fewer than two occupants are eligible (active and not sitting out); with
at least two, when the dealer button's rotation — which runs over the
eligible occupants that are also not still flagged folded — finds the
seat circularly after the old dealer seat and the blind seats are
computable from the new dealer, it succeeds and returns the input with
players reset (contributions and folded flags cleared, negative stacks
clamped to 0, `active` recomputed as chips > 0 and not sitting out),
the new dealer seat, pot 0, highestBet 0, minRaise = big blind, phase
`SETUP`, turn = small-blind seat, and the last action cleared. -/
theorem c7_reset_for_next_hand (s : GameSnapshot) :
    ((s.players.filter isEligible).length < 2 →
      resetForNextHand s = .err .NOT_ENOUGH_PLAYERS) ∧
    (∀ d sb bb : Int,
      2 ≤ (s.players.filter isEligible).length →
      (((s.players.filter isEligible).filter inRotation).map
        (fun p => p.seat)).Nodup →
      specNextActiveSeat (s.players.filter isEligible) s.dealerSeat = some d →
      getSmallBlindSeat (tempStateForBlinds s d) = some sb →
      getBigBlindSeat (tempStateForBlinds s d) (some sb) = some bb →
      resetForNextHand s = .ok { s with
        players := resetPlayersOf s
        dealerSeat := some d
        potSize := 0
        currentTurn := some sb
        highestBet := 0
        minRaise := s.bigBlind
        phase := Phase.SETUP
        roundComplete := false
        lastAction := none }) := by
  constructor
  · intro h
    simp only [resetForNextHand]
    rw [if_pos h]
  · intro d sb bb h2 hnd hd hsb hbb
    have hd2 : getNextActiveSeat (s.players.filter isEligible) s.dealerSeat
        = some d := by
      rw [nextActiveSeat_refines_spec _ _ hnd]
      exact hd
    simp only [resetForNextHand]
    rw [if_neg (Nat.not_lt.mpr h2)]
    simp only [hd2, hsb, hbb]

/-- C7 (amended) witness: on the concrete two-player `HAND_OVER` table
(where the seat-2 occupant is still flagged folded) the reset succeeds
with the dealer staying on seat 1 and the turn at the small-blind
seat 1. -/
theorem c7_reset_for_next_hand_witness :
    resetForNextHand c7HandOver = .ok { c7HandOver with
      players := resetPlayersOf c7HandOver
      dealerSeat := some 1
      potSize := 0
      currentTurn := some 1
      highestBet := 0
      minRaise := c7HandOver.bigBlind
      phase := Phase.SETUP
      roundComplete := false
      lastAction := none } :=
  (c7_reset_for_next_hand c7HandOver).2 1 1 2 (by decide) (by decide)
    (by decide) (by decide) (by decide)
